import Mathlib

/-!
Shallow embedding of `src/efs_mbn_extractor.py` (the MCFG container parser
of the efs_mbn_extractor repository).

The parser operates on an in-memory byte buffer through a forward cursor
(Python `io.BytesIO`).  We model the buffer as a `List Nat` of byte values
and the cursor as a natural-number position.  Each Python parsing function
becomes an `Except String`-valued Lean function returning the decoded value
together with the advanced stream; the error strings are the exact messages
raised by the Python code.  File output (`_save_to_file`) is modelled by
returning the `(save_name, content)` pairs the decoders pass to it, in
order; `_parse_image` accumulates them and keeps the ones emitted before a
failure, mirroring the fact that files already written to disk are not
rolled back.
-/

/-- A `BytesIO` stream: the underlying buffer and the current position. -/
structure ByteStream where
  data : List Nat
  pos : Nat
deriving DecidableEq, Repr

/-- The bytes from the current position to the end of the buffer. -/
def ByteStream.remaining (s : ByteStream) : List Nat := s.data.drop s.pos

/-- Python `stream.read(size)`: a non-negative `size` returns up to `size`
bytes from the current position; a negative `size` returns all remaining
bytes.  The position advances by the number of bytes actually returned. -/
def streamRead (s : ByteStream) (size : Int) : List Nat × ByteStream :=
  let out := if size < 0 then s.remaining else s.remaining.take size.toNat
  (out, ⟨s.data, s.pos + out.length⟩)

/-- Model of `MbnExtractor._read_exact`: read `size` bytes and fail unless exactly
`size` bytes came back. -/
def readExact (s : ByteStream) (size : Int) : Except String (List Nat × ByteStream) :=
  let r := streamRead s size
  if (r.1.length : Int) = size then .ok r
  else .error "Unexpected EOF while reading MBN"

/-- Little-endian interpretation of a byte list
(`struct.unpack` with `<H` / `<I` on the exact field bytes). -/
def leBytes (bs : List Nat) : Nat := bs.foldr (fun b acc => b + 256 * acc) 0

/-- Model of `struct.unpack("<H", _read_exact(stream, 2))[0]`. -/
def readU16 (s : ByteStream) : Except String (Nat × ByteStream) :=
  match readExact s 2 with
  | .error e => .error e
  | .ok (d, s') => .ok (leBytes d, s')

/-- Model of `struct.unpack("<I", _read_exact(stream, 4))[0]`. -/
def readU32 (s : ByteStream) : Except String (Nat × ByteStream) :=
  match readExact s 4 with
  | .error e => .error e
  | .ok (d, s') => .ok (leBytes d, s')

/-- Python `bytes.decode("ascii", errors="ignore")`: bytes ≥ 0x80 are
silently dropped, the rest become their ASCII characters. -/
def decodeAsciiIgnore (bs : List Nat) : String :=
  String.mk ((bs.filter (fun b => b < 128)).map Char.ofNat)

/-- Python `bytes.find(sub)`: index of the first occurrence, if any. -/
def bytesFind (data magic : List Nat) : Option Nat :=
  if magic.isPrefixOf data then some 0
  else
    match data with
    | [] => none
    | _ :: tl => (bytesFind tl magic).map (· + 1)

/-- The 4-byte container signature `b"MCFG"`. -/
def MAGIC : List Nat := [77, 67, 70, 71]

/-- The trailer marker `b"MCFG_TRL"`. -/
def TRAILER_MAGIC : List Nat := [77, 67, 70, 71, 95, 84, 82, 76]

/-- Model of `MbnExtractor._find_magic_and_seek`: read the whole remaining buffer,
locate the first occurrence of the magic and `seek` there (an absolute
position, as in the Python code). -/
def findMagicAndSeek (s : ByteStream) (magic : List Nat) : Except String ByteStream :=
  match bytesFind (streamRead s (-1)).1 magic with
  | none => .error "Invalid MBN format. Cant find magic string"
  | some idx => .ok ⟨s.data, idx⟩

/-- Model of `McfgHeader`: the fields kept by the Python class of the same name
(`version_id` and `version_size` are checked but not stored). -/
structure McfgHeader where
  magic : String
  format_type : Nat
  configuration_type : Nat
  items_count : Nat
  carrier_index : Nat
  reserved : Nat
  version : Nat
deriving DecidableEq, Repr

/-- Model of `ItemHeader`: length (u32), type (u8), attributes (u8), reserved (u16). -/
structure ItemHeader where
  length : Nat
  type : Nat
  attributes : Nat
  reserved : Nat
deriving DecidableEq, Repr

/-- Model of `MbnExtractor._read_mcfg_header`: locate `b"MCFG"`, read the fixed
little-endian header fields, and check the two version constants. -/
def readMcfgHeader (s : ByteStream) : Except String (McfgHeader × ByteStream) :=
  match findMagicAndSeek s MAGIC with
  | .error e => .error e
  | .ok s0 =>
  match readExact s0 4 with
  | .error e => .error e
  | .ok (magicBytes, s1) =>
  match readU16 s1 with
  | .error e => .error e
  | .ok (formatType, s2) =>
  match readU16 s2 with
  | .error e => .error e
  | .ok (configurationType, s3) =>
  match readU32 s3 with
  | .error e => .error e
  | .ok (itemsCount, s4) =>
  match readU16 s4 with
  | .error e => .error e
  | .ok (carrierIndex, s5) =>
  match readU16 s5 with
  | .error e => .error e
  | .ok (reservedF, s6) =>
  match readU16 s6 with
  | .error e => .error e
  | .ok (versionId, s7) =>
  if versionId ≠ 4995 then .error "Invalid MBN header version id"
  else
  match readU16 s7 with
  | .error e => .error e
  | .ok (versionSize, s8) =>
  if versionSize ≠ 4 then .error "Invalid MBN header version size"
  else
  match readU32 s8 with
  | .error e => .error e
  | .ok (version, s9) =>
  .ok (⟨decodeAsciiIgnore magicBytes, formatType, configurationType,
        itemsCount, carrierIndex, reservedF, version⟩, s9)

/-- Model of `struct.unpack("<I B B H", data)` on the 8 item-header bytes. -/
def unpackItemHeader (d : List Nat) : ItemHeader :=
  match d with
  | [l0, l1, l2, l3, t, a, r0, r1] => ⟨leBytes [l0, l1, l2, l3], t, a, leBytes [r0, r1]⟩
  | _ => ⟨0, 0, 0, 0⟩

/-- Model of `MbnExtractor._read_item_header`. -/
def readItemHeader (s : ByteStream) : Except String (ItemHeader × ByteStream) :=
  match readExact s 8 with
  | .error e => .error e
  | .ok (d, s') => .ok (unpackItemHeader d, s')

/-- Python `f"{nv_id:08d}"`: decimal digits left-padded with zeros to
width 8. -/
def zeroPad8 (s : String) : String :=
  String.mk (List.replicate (8 - s.length) '0' ++ s.data)

/-- The output name of an NV item: `f"NvItem__{nv_id:08d}"`. -/
def nvItemName (id : Nat) : String := "NvItem__" ++ zeroPad8 (Nat.repr id)

/-- Model of `MbnExtractor._parse_nv`: nv_id (u16), declared size (u16), one data
magic byte, `size − 1` data bytes; the consumed span plus the 8 header
bytes must equal the item header length.  Returns the `(name, content)`
pair passed to `_save_to_file`. -/
def parseNv (h : ItemHeader) (s : ByteStream) :
    Except String ((String × List Nat) × ByteStream) :=
  match readU16 s with
  | .error e => .error e
  | .ok (nvId, s1) =>
  match readU16 s1 with
  | .error e => .error e
  | .ok (sizeField, s2) =>
  match readExact s2 1 with
  | .error e => .error e
  | .ok (_, s3) =>
  match readExact s3 ((sizeField : Int) - 1) with
  | .error e => .error e
  | .ok (data, s4) =>
  if (s4.pos - s.pos) + 8 ≠ h.length then .error "Invalid NV item size"
  else .ok ((nvItemName nvId, data), s4)

/-- Model of `MbnExtractor._parse_file`: header magic (must be 1), name length,
name bytes (final byte stripped before ASCII-ignore decoding when the
length is positive), size magic (must be 2), declared size, one data magic
byte, `size − 1` data bytes; span check as for NV; the save name gets a
kind-dependent suffix unless `no_extra_data` is set. -/
def parseFile (h : ItemHeader) (isNvFile noExtraData : Bool) (s : ByteStream) :
    Except String ((String × List Nat) × ByteStream) :=
  match readU16 s with
  | .error e => .error e
  | .ok (fileHeaderMagic, s1) =>
  if fileHeaderMagic ≠ 1 then .error "Invalid file header magic"
  else
  match readU16 s1 with
  | .error e => .error e
  | .ok (fileNameLength, s2) =>
  match readExact s2 (fileNameLength : Int) with
  | .error e => .error e
  | .ok (rawName, s3) =>
  let fileName := if 0 < fileNameLength then
      decodeAsciiIgnore (rawName.take (fileNameLength - 1)) else ""
  match readU16 s3 with
  | .error e => .error e
  | .ok (fileSizeMagic, s4) =>
  if fileSizeMagic ≠ 2 then .error "Invalid file size magic"
  else
  match readU16 s4 with
  | .error e => .error e
  | .ok (sizeField, s5) =>
  match readExact s5 1 with
  | .error e => .error e
  | .ok (_, s6) =>
  match readExact s6 ((sizeField : Int) - 1) with
  | .error e => .error e
  | .ok (data, s7) =>
  if (s7.pos - s.pos) + 8 ≠ h.length then .error "Invalid file item size"
  else
    let saveName := if noExtraData then fileName
      else if isNvFile then fileName ++ "__E1FF_F" else fileName ++ "__81FF_0"
    .ok ((saveName, data), s7)

/-- Model of `MbnExtractor._read_trailer`: record length (discarded), magic1 = 10,
reserved (discarded), magic2 = 0xA1, data length ≥ 8, then
`data_length − 8` payload bytes whose ASCII-ignore decoding must equal
`"MCFG_TRL"`. -/
def readTrailer (s : ByteStream) : Except String ByteStream :=
  match readExact s 4 with
  | .error e => .error e
  | .ok (_, s1) =>
  match readU16 s1 with
  | .error e => .error e
  | .ok (m1, s2) =>
  if m1 ≠ 10 then .error "Invalid trailer magic 1"
  else
  match readExact s2 2 with
  | .error e => .error e
  | .ok (_, s3) =>
  match readU16 s3 with
  | .error e => .error e
  | .ok (m2, s4) =>
  if m2 ≠ 0xA1 then .error "Invalid trailer magic 2"
  else
  match readU16 s4 with
  | .error e => .error e
  | .ok (dataLength, s5) =>
  if dataLength < 8 then .error "Invalid trailer size"
  else
  match readExact s5 ((dataLength : Int) - 8) with
  | .error e => .error e
  | .ok (payload, s6) =>
  if decodeAsciiIgnore payload ≠ decodeAsciiIgnore TRAILER_MAGIC then
    .error "Invalid trailer magic value"
  else .ok s6

/-- The `item_type` dispatch of `_parse_image`: Nv = 1, NvFile = 2,
File = 4, anything else is fatal. -/
def parseOneItem (h : ItemHeader) (noExtraData : Bool) (s : ByteStream) :
    Except String ((String × List Nat) × ByteStream) :=
  if h.type = 1 then parseNv h s
  else if h.type = 2 then parseFile h true noExtraData s
  else if h.type = 4 then parseFile h false noExtraData s
  else .error "Invalid MBN: unknown item type"

/-- The item loop of `_parse_image`, iterated a fixed number of times.
Outputs emitted before a failure are kept (they were already written to
disk by `_save_to_file`). -/
def parseItems (noExtraData : Bool) :
    Nat → ByteStream → List (String × List Nat) × Except String ByteStream
  | 0, s => ([], .ok s)
  | n + 1, s =>
    match readItemHeader s with
    | .error e => ([], .error e)
    | .ok (h, s1) =>
      match parseOneItem h noExtraData s1 with
      | .error e => ([], .error e)
      | .ok (out, s2) =>
        let r := parseItems noExtraData n s2
        (out :: r.1, r.2)

/-- Model of `MbnExtractor._parse_image` on a byte buffer: read the header, reject
a zero item count, loop `items_count − 1` times over item records, then
read the trailer.  The first component is the ordered list of
`(save_name, content)` pairs written before any failure. -/
def parseImage (buffer : List Nat) (noExtraData : Bool) :
    List (String × List Nat) × Except String Unit :=
  match readMcfgHeader ⟨buffer, 0⟩ with
  | .error e => ([], .error e)
  | .ok (hdr, s) =>
    if hdr.items_count = 0 then ([], .error "Invalid MBN header: zero items count")
    else
      match parseItems noExtraData (hdr.items_count - 1) s with
      | (outs, .error e) => (outs, .error e)
      | (outs, .ok s2) =>
        match readTrailer s2 with
        | .error e => (outs, .error e)
        | .ok _ => (outs, .ok ())

/-! ### Byte-level encoders

Generic little-endian encoders used to build concrete and parametric input
buffers for the theorems.  They are the inverse direction of the field
reads above and are never used by the parser itself. -/

/-- Encode a 16-bit value as two little-endian bytes. -/
def encU16 (n : Nat) : List Nat := [n % 256, n / 256 % 256]

/-- Encode a 32-bit value as four little-endian bytes. -/
def encU32 (n : Nat) : List Nat :=
  [n % 256, n / 256 % 256, n / 65536 % 256, n / 16777216 % 256]

/-- A fully well-formed NV item record (8-byte item header with
type 1 followed by the NV payload); its declared length `13 + data.length`
is exactly the span the decoder consumes. -/
def encNvItem (id : Nat) (data : List Nat) : List Nat :=
  encU32 (13 + data.length) ++ [1, 0, 0, 0] ++
    encU16 id ++ encU16 (data.length + 1) ++ [0] ++ data

/-- A fully well-formed file-shaped item record of the given kind byte
(2 = NvFile, 4 = File) with on-wire name field `nb` and content `data`. -/
def encFileItem (kind : Nat) (nb data : List Nat) : List Nat :=
  encU32 (17 + nb.length + data.length) ++ [kind, 0, 0, 0] ++
    encU16 1 ++ encU16 nb.length ++ nb ++ encU16 2 ++
    encU16 (data.length + 1) ++ [0] ++ data

/-- A trailer record with every field free. -/
def encTrailerRaw (rl4 : List Nat) (m1 : Nat) (rsv2 : List Nat)
    (m2 dl : Nat) (payload : List Nat) : List Nat :=
  rl4 ++ encU16 m1 ++ rsv2 ++ encU16 m2 ++ encU16 dl ++ payload

/-- The canonical valid trailer: magic1 = 10, magic2 = 0xA1,
data length 16, payload `b"MCFG_TRL"`. -/
def encTrailer : List Nat :=
  encTrailerRaw [0, 0, 0, 0] 10 [0, 0] 0xA1 16 TRAILER_MAGIC

/-- An MCFG container header with every field free. -/
def encHeaderGen (ft ct n ci rsv vid vsz ver : Nat) : List Nat :=
  MAGIC ++ encU16 ft ++ encU16 ct ++ encU32 n ++ encU16 ci ++
    encU16 rsv ++ encU16 vid ++ encU16 vsz ++ encU32 ver

/-- A valid container header declaring `n` items. -/
def encHeader (n : Nat) : List Nat := encHeaderGen 0 0 n 0 0 4995 4 0

/-! ### Basic stream lemmas -/

theorem remaining_mk (data : List Nat) (pos : Nat) :
    (⟨data, pos⟩ : ByteStream).remaining = data.drop pos := rfl

/-- Reading exactly the length of a prefix of the remaining bytes succeeds,
returns that prefix, and advances the position past it. -/
theorem readExact_pref (s : ByteStream) (xs rest : List Nat)
    (hs : s.remaining = xs ++ rest) :
    readExact s (xs.length : Int) = .ok (xs, ⟨s.data, s.pos + xs.length⟩) ∧
      (⟨s.data, s.pos + xs.length⟩ : ByteStream).remaining = rest := by
  have hnn : ¬((xs.length : Int) < 0) := by omega
  constructor
  · simp [readExact, streamRead, hs, List.take_left, hnn]
  · show s.data.drop (s.pos + xs.length) = rest
    have h2 : s.data.drop s.pos = xs ++ rest := hs
    have h3 : (s.data.drop s.pos).drop xs.length = s.data.drop (s.pos + xs.length) := by
      rw [List.drop_drop, Nat.add_comm]
    rw [← h3, h2, List.drop_left]

/-- Asking for more bytes than remain fails with the EOF error. -/
theorem readExact_short (s : ByteStream) (n : Nat)
    (h : s.remaining.length < n) :
    readExact s (n : Int) = .error "Unexpected EOF while reading MBN" := by
  have hnn : ¬((n : Int) < 0) := by omega
  have hlen : (s.remaining.take n).length = s.remaining.length := by
    simp [Nat.le_of_lt h]
  have hne : ¬((s.remaining.length : Int) = (n : Int)) := by omega
  simp [readExact, streamRead, hnn, hlen, hne]

/-- Asking for a negative number of bytes always fails: `read` returns all
remaining bytes and their count can never equal the negative request. -/
theorem readExact_neg (s : ByteStream) (n : Int) (h : n < 0) :
    readExact s n = .error "Unexpected EOF while reading MBN" := by
  simp only [readExact, streamRead]
  have : ¬((s.remaining.length : Int) = n) := by
    intro hc
    omega
  simp [h, this]

theorem leBytes_encU16 (n : Nat) (h : n < 65536) : leBytes (encU16 n) = n := by
  simp [leBytes, encU16]
  omega

theorem leBytes_encU32 (n : Nat) (h : n < 4294967296) :
    leBytes (encU32 n) = n := by
  simp [leBytes, encU32]
  omega

/-- Reading a 16-bit field off an encoded prefix. -/
theorem readU16_pref (s : ByteStream) (n : Nat) (rest : List Nat)
    (hn : n < 65536) (hs : s.remaining = encU16 n ++ rest) :
    readU16 s = .ok (n, ⟨s.data, s.pos + 2⟩) ∧
      (⟨s.data, s.pos + 2⟩ : ByteStream).remaining = rest := by
  have h2 : (encU16 n).length = 2 := rfl
  have h := readExact_pref s (encU16 n) rest hs
  rw [h2] at h
  refine ⟨?_, h.2⟩
  simp only [readU16]
  rw [show ((2 : Nat) : Int) = (2 : Int) from rfl] at h
  rw [h.1]
  simp [leBytes_encU16 n hn]

/-- Reading a 32-bit field off an encoded prefix. -/
theorem readU32_pref (s : ByteStream) (n : Nat) (rest : List Nat)
    (hn : n < 4294967296) (hs : s.remaining = encU32 n ++ rest) :
    readU32 s = .ok (n, ⟨s.data, s.pos + 4⟩) ∧
      (⟨s.data, s.pos + 4⟩ : ByteStream).remaining = rest := by
  have h4 : (encU32 n).length = 4 := rfl
  have h := readExact_pref s (encU32 n) rest hs
  rw [h4] at h
  refine ⟨?_, h.2⟩
  simp only [readU32]
  rw [show ((4 : Nat) : Int) = (4 : Int) from rfl] at h
  rw [h.1]
  simp [leBytes_encU32 n hn]

/-- Lemma `readExact_pref` specialised to a literal stream. -/
theorem readExact_at (buf : List Nat) (p : Nat) (xs rest : List Nat)
    (hs : buf.drop p = xs ++ rest) :
    readExact ⟨buf, p⟩ (xs.length : Int) = .ok (xs, ⟨buf, p + xs.length⟩) ∧
      buf.drop (p + xs.length) = rest :=
  readExact_pref ⟨buf, p⟩ xs rest hs

/-- Lemma `readU16_pref` specialised to a literal stream. -/
theorem readU16_at (buf : List Nat) (p n : Nat) (rest : List Nat)
    (hn : n < 65536) (hs : buf.drop p = encU16 n ++ rest) :
    readU16 ⟨buf, p⟩ = .ok (n, ⟨buf, p + 2⟩) ∧ buf.drop (p + 2) = rest :=
  readU16_pref ⟨buf, p⟩ n rest hn hs

/-- Lemma `readU32_pref` specialised to a literal stream. -/
theorem readU32_at (buf : List Nat) (p n : Nat) (rest : List Nat)
    (hn : n < 4294967296) (hs : buf.drop p = encU32 n ++ rest) :
    readU32 ⟨buf, p⟩ = .ok (n, ⟨buf, p + 4⟩) ∧ buf.drop (p + 4) = rest :=
  readU32_pref ⟨buf, p⟩ n rest hn hs

/-- Behaviour of `_parse_nv` on an encoded NV payload: it succeeds exactly
when the enclosing item header declares length `13 + data.length`, and on a
mismatch it raises the NV size-mismatch error. -/
theorem parseNv_enc (h : ItemHeader) (buf : List Nat) (p : Nat)
    (id m : Nat) (data rest : List Nat)
    (hid : id < 65536) (hlen : data.length + 1 < 65536)
    (hs : buf.drop p =
      encU16 id ++ (encU16 (data.length + 1) ++ ([m] ++ (data ++ rest)))) :
    (h.length = 13 + data.length →
      parseNv h ⟨buf, p⟩ =
        .ok ((nvItemName id, data), ⟨buf, p + (5 + data.length)⟩) ∧
        buf.drop (p + (5 + data.length)) = rest) ∧
    (h.length ≠ 13 + data.length →
      parseNv h ⟨buf, p⟩ = .error "Invalid NV item size") := by
  obtain ⟨h1, r1⟩ := readU16_at buf p id _ hid hs
  obtain ⟨h2, r2⟩ := readU16_at buf (p + 2) (data.length + 1) _ hlen r1
  obtain ⟨h3, r3⟩ := readExact_at buf (p + 2 + 2) [m] _ r2
  rw [show (([m] : List Nat).length : Int) = (1 : Int) from rfl] at h3
  rw [show ([m] : List Nat).length = 1 from rfl] at h3 r3
  obtain ⟨h4, r4⟩ := readExact_at buf (p + 2 + 2 + 1) data rest r3
  have hc : ((data.length + 1 : Nat) : Int) - 1 = ((data.length : Nat) : Int) := by
    push_cast
    ring
  have hkey : parseNv h ⟨buf, p⟩ =
      if p + 2 + 2 + 1 + data.length - p + 8 ≠ h.length then
        .error "Invalid NV item size"
      else .ok ((nvItemName id, data), ⟨buf, p + 2 + 2 + 1 + data.length⟩) := by
    simp only [parseNv, h1, h2, h3, hc, h4]
  constructor
  · intro hL
    have hcond : ¬(p + 2 + 2 + 1 + data.length - p + 8 ≠ h.length) := by omega
    rw [hkey, if_neg hcond]
    have he : p + 2 + 2 + 1 + data.length = p + (5 + data.length) := by omega
    rw [he] at r4 ⊢
    exact ⟨rfl, r4⟩
  · intro hL
    have hcond : p + 2 + 2 + 1 + data.length - p + 8 ≠ h.length := by omega
    rw [hkey, if_pos hcond]

/-- Behaviour of `_parse_file` on an encoded file payload with on-wire
name field `nb` (kind and suffix mode free): it succeeds exactly when the
enclosing item header declares length `17 + nb.length + data.length`, the
decoded name is the ASCII-ignore decoding of `nb` without its final byte,
and the save name follows the suffix policy; on a length mismatch it
raises the file size-mismatch error. -/
theorem parseFile_enc (h : ItemHeader) (isNv ne : Bool) (buf : List Nat)
    (p m : Nat) (nb data rest : List Nat)
    (hnb : nb.length < 65536) (hlen : data.length + 1 < 65536)
    (hs : buf.drop p =
      encU16 1 ++ (encU16 nb.length ++ (nb ++ (encU16 2 ++
        (encU16 (data.length + 1) ++ ([m] ++ (data ++ rest))))))) :
    (h.length = 17 + nb.length + data.length →
      parseFile h isNv ne ⟨buf, p⟩ =
        .ok ((((fun fn => if ne then fn
                else if isNv then fn ++ "__E1FF_F" else fn ++ "__81FF_0")
              (if 0 < nb.length then
                decodeAsciiIgnore (nb.take (nb.length - 1)) else "")), data),
             ⟨buf, p + (9 + nb.length + data.length)⟩) ∧
        buf.drop (p + (9 + nb.length + data.length)) = rest) ∧
    (h.length ≠ 17 + nb.length + data.length →
      parseFile h isNv ne ⟨buf, p⟩ = .error "Invalid file item size") := by
  obtain ⟨h1, r1⟩ := readU16_at buf p 1 _ (by omega) hs
  obtain ⟨h2, r2⟩ := readU16_at buf (p + 2) nb.length _ hnb r1
  obtain ⟨h3, r3⟩ := readExact_at buf (p + 2 + 2) nb _ r2
  obtain ⟨h4, r4⟩ := readU16_at buf (p + 2 + 2 + nb.length) 2 _ (by omega) r3
  obtain ⟨h5, r5⟩ :=
    readU16_at buf (p + 2 + 2 + nb.length + 2) (data.length + 1) _ hlen r4
  obtain ⟨h6, r6⟩ :=
    readExact_at buf (p + 2 + 2 + nb.length + 2 + 2) [m] _ r5
  rw [show (([m] : List Nat).length : Int) = (1 : Int) from rfl] at h6
  rw [show ([m] : List Nat).length = 1 from rfl] at h6 r6
  obtain ⟨h7, r7⟩ :=
    readExact_at buf (p + 2 + 2 + nb.length + 2 + 2 + 1) data rest r6
  have hc : ((data.length + 1 : Nat) : Int) - 1 = ((data.length : Nat) : Int) := by
    push_cast
    ring
  have hkey : parseFile h isNv ne ⟨buf, p⟩ =
      if p + 2 + 2 + nb.length + 2 + 2 + 1 + data.length - p + 8 ≠ h.length then
        .error "Invalid file item size"
      else
        .ok ((((fun fn => if ne then fn
                else if isNv then fn ++ "__E1FF_F" else fn ++ "__81FF_0")
              (if 0 < nb.length then
                decodeAsciiIgnore (nb.take (nb.length - 1)) else "")), data),
             ⟨buf, p + 2 + 2 + nb.length + 2 + 2 + 1 + data.length⟩) := by
    simp only [parseFile, h1, h2, h3, h4, h5, h6, hc, h7, ne_eq, reduceIte]
    simp
  constructor
  · intro hL
    have hcond :
        ¬(p + 2 + 2 + nb.length + 2 + 2 + 1 + data.length - p + 8 ≠ h.length) := by
      omega
    rw [hkey, if_neg hcond]
    have he : p + 2 + 2 + nb.length + 2 + 2 + 1 + data.length =
        p + (9 + nb.length + data.length) := by omega
    rw [he] at r7 ⊢
    exact ⟨rfl, r7⟩
  · intro hL
    have hcond :
        p + 2 + 2 + nb.length + 2 + 2 + 1 + data.length - p + 8 ≠ h.length := by
      omega
    rw [hkey, if_pos hcond]

theorem unpackItemHeader_enc (L ty a r0 r1 : Nat) (hL : L < 4294967296) :
    unpackItemHeader (encU32 L ++ [ty, a, r0, r1]) =
      ⟨L, ty, a, leBytes [r0, r1]⟩ := by
  have h := leBytes_encU32 L hL
  simp only [encU32] at h ⊢
  simp only [List.cons_append, List.nil_append, unpackItemHeader]
  rw [h]

/-- Reading an 8-byte item record header off an encoded prefix. -/
theorem readItemHeader_at (buf : List Nat) (p L ty a r0 r1 : Nat)
    (rest : List Nat) (hL : L < 4294967296)
    (hs : buf.drop p = encU32 L ++ ([ty, a, r0, r1] ++ rest)) :
    readItemHeader ⟨buf, p⟩ =
      .ok (⟨L, ty, a, leBytes [r0, r1]⟩, ⟨buf, p + 8⟩) ∧
      buf.drop (p + 8) = rest := by
  have hs' : buf.drop p = (encU32 L ++ [ty, a, r0, r1]) ++ rest := by
    rw [List.append_assoc]
    exact hs
  obtain ⟨q1, q2⟩ := readExact_at buf p (encU32 L ++ [ty, a, r0, r1]) rest hs'
  rw [show (((encU32 L ++ [ty, a, r0, r1]).length : Nat) : Int) = (8 : Int) by
    simp [encU32]] at q1
  rw [show (encU32 L ++ [ty, a, r0, r1]).length = 8 by simp [encU32]] at q1 q2
  refine ⟨?_, q2⟩
  simp only [readItemHeader, q1, unpackItemHeader_enc L ty a r0 r1 hL]

/-- Behaviour of `_find_magic_and_seek` on a buffer that starts with the signature. -/
theorem findMagicAtStart (l : List Nat) :
    findMagicAndSeek ⟨MAGIC ++ l, 0⟩ MAGIC = .ok ⟨MAGIC ++ l, 0⟩ := by
  have hfind : bytesFind (MAGIC ++ l) MAGIC = some 0 := by
    rw [bytesFind.eq_def]
    simp [ List.isPrefixOf_iff_prefix, List.prefix_append]
  have hneg : ((-1 : Int) < 0) := by norm_num
  simp [findMagicAndSeek, streamRead, ByteStream.remaining, hneg, hfind]

theorem decodeAscii_TRL : decodeAsciiIgnore TRAILER_MAGIC = "MCFG_TRL" := by
  decide

theorem decodeAscii_MCFG : decodeAsciiIgnore MAGIC = "MCFG" := by
  decide

/-- Behaviour of `_read_mcfg_header` on an encoded container header with free fields:
it fails on a wrong `version_id` or `version_size` and otherwise yields
the header fields with the cursor just past the 24 header bytes. -/
theorem readMcfgHeader_enc (ft ct n ci rsv vid vsz ver : Nat)
    (rest : List Nat)
    (hft : ft < 65536) (hct : ct < 65536) (hn : n < 4294967296)
    (hci : ci < 65536) (hrsv : rsv < 65536) (hvid : vid < 65536)
    (hvsz : vsz < 65536) (hver : ver < 4294967296) :
    readMcfgHeader ⟨encHeaderGen ft ct n ci rsv vid vsz ver ++ rest, 0⟩ =
      (if vid ≠ 4995 then .error "Invalid MBN header version id"
       else if vsz ≠ 4 then .error "Invalid MBN header version size"
       else .ok (⟨"MCFG", ft, ct, n, ci, rsv, ver⟩,
         ⟨encHeaderGen ft ct n ci rsv vid vsz ver ++ rest, 24⟩)) ∧
      (encHeaderGen ft ct n ci rsv vid vsz ver ++ rest).drop 24 = rest := by
  have hb : encHeaderGen ft ct n ci rsv vid vsz ver ++ rest =
      MAGIC ++ (encU16 ft ++ (encU16 ct ++ (encU32 n ++ (encU16 ci ++
        (encU16 rsv ++ (encU16 vid ++ (encU16 vsz ++ (encU32 ver ++ rest)))))))) := by
    simp [encHeaderGen, List.append_assoc]
  rw [hb]
  have hs0 : (MAGIC ++ (encU16 ft ++ (encU16 ct ++ (encU32 n ++ (encU16 ci ++
      (encU16 rsv ++ (encU16 vid ++ (encU16 vsz ++ (encU32 ver ++ rest))))))))).drop 0 =
      MAGIC ++ (encU16 ft ++ (encU16 ct ++ (encU32 n ++ (encU16 ci ++
      (encU16 rsv ++ (encU16 vid ++ (encU16 vsz ++ (encU32 ver ++ rest)))))))) :=
    List.drop_zero _
  obtain ⟨h1, r1⟩ := readExact_at _ 0 MAGIC _ hs0
  rw [show ((MAGIC.length : Nat) : Int) = (4 : Int) from rfl] at h1
  rw [show MAGIC.length = 4 from rfl] at h1 r1
  obtain ⟨h2, r2⟩ := readU16_at _ (0 + 4) ft _ hft r1
  obtain ⟨h3, r3⟩ := readU16_at _ (0 + 4 + 2) ct _ hct r2
  obtain ⟨h4, r4⟩ := readU32_at _ (0 + 4 + 2 + 2) n _ hn r3
  obtain ⟨h5, r5⟩ := readU16_at _ (0 + 4 + 2 + 2 + 4) ci _ hci r4
  obtain ⟨h6, r6⟩ := readU16_at _ (0 + 4 + 2 + 2 + 4 + 2) rsv _ hrsv r5
  obtain ⟨h7, r7⟩ := readU16_at _ (0 + 4 + 2 + 2 + 4 + 2 + 2) vid _ hvid r6
  obtain ⟨h8, r8⟩ := readU16_at _ (0 + 4 + 2 + 2 + 4 + 2 + 2 + 2) vsz _ hvsz r7
  obtain ⟨h9, r9⟩ := readU32_at _ (0 + 4 + 2 + 2 + 4 + 2 + 2 + 2 + 2) ver _ hver r8
  have he : (0 + 4 + 2 + 2 + 4 + 2 + 2 + 2 + 2 + 4 : Nat) = 24 := by norm_num
  rw [he] at h9 r9
  constructor
  · simp only [readMcfgHeader, findMagicAtStart, h1, h2, h3, h4, h5, h6, h7,
      h8, h9, decodeAscii_MCFG]
  · exact r9

/-- Behaviour of `_read_trailer` on an encoded trailer record with free fields: the
result is the exact cascade of the Python checks — magic1 must be 10,
magic2 must be 0xA1, the data length must be at least 8, and the
ASCII-ignore decoding of the payload must equal `"MCFG_TRL"`. -/
theorem readTrailer_raw (buf : List Nat) (p : Nat) (rl4 : List Nat)
    (m1 : Nat) (rsv2 : List Nat) (m2 dl : Nat) (payload rest : List Nat)
    (hrl : rl4.length = 4) (hrsv : rsv2.length = 2)
    (hm1 : m1 < 65536) (hm2 : m2 < 65536) (hdl : dl < 65536)
    (hpl : payload.length = dl - 8)
    (hs : buf.drop p = rl4 ++ (encU16 m1 ++ (rsv2 ++ (encU16 m2 ++
      (encU16 dl ++ (payload ++ rest)))))) :
    readTrailer ⟨buf, p⟩ =
      if m1 ≠ 10 then .error "Invalid trailer magic 1"
      else if m2 ≠ 161 then .error "Invalid trailer magic 2"
      else if dl < 8 then .error "Invalid trailer size"
      else if decodeAsciiIgnore payload ≠ "MCFG_TRL" then
        .error "Invalid trailer magic value"
      else .ok ⟨buf, p + (12 + payload.length)⟩ := by
  obtain ⟨h1, r1⟩ := readExact_at buf p rl4 _ hs
  rw [hrl] at h1 r1
  rw [show (((4 : Nat)) : Int) = (4 : Int) from rfl] at h1
  obtain ⟨h2, r2⟩ := readU16_at buf (p + 4) m1 _ hm1 r1
  obtain ⟨h3, r3⟩ := readExact_at buf (p + 4 + 2) rsv2 _ r2
  rw [hrsv] at h3 r3
  rw [show (((2 : Nat)) : Int) = (2 : Int) from rfl] at h3
  obtain ⟨h4, r4⟩ := readU16_at buf (p + 4 + 2 + 2) m2 _ hm2 r3
  obtain ⟨h5, r5⟩ := readU16_at buf (p + 4 + 2 + 2 + 2) dl _ hdl r4
  by_cases hc3 : dl < 8
  · simp only [readTrailer, h1, h2, h3, h4, h5]
    simp [hc3]
  · have hcast : ((dl : Int) - 8) = ((payload.length : Nat) : Int) := by
      omega
    obtain ⟨h6, r6⟩ := readExact_at buf (p + 4 + 2 + 2 + 2 + 2) payload rest r5
    have he : p + 4 + 2 + 2 + 2 + 2 + payload.length =
        p + (12 + payload.length) := by omega
    rw [he] at h6
    simp only [readTrailer, h1, h2, h3, h4, h5, hcast, h6, decodeAscii_TRL]

/-- The item loop on a run of `k` encoded NV items consumes exactly those
items, emits one output per item in order, and stops right after them. -/
theorem parseItems_encNv (ne : Bool) (items : List (Nat × List Nat))
    (buf : List Nat) (rest : List Nat) :
    ∀ p, (∀ it ∈ items, it.1 < 65536 ∧ it.2.length + 1 < 65536) →
    buf.drop p = (items.map fun it => encNvItem it.1 it.2).flatten ++ rest →
    parseItems ne items.length ⟨buf, p⟩ =
      (items.map fun it => (nvItemName it.1, it.2),
       .ok ⟨buf, p + ((items.map fun it => encNvItem it.1 it.2).flatten).length⟩) ∧
    buf.drop (p + ((items.map fun it => encNvItem it.1 it.2).flatten).length) = rest := by
  induction items with
  | nil =>
    intro p _ hs
    constructor
    · simp [parseItems]
    · simpa using hs
  | cons it tl ih =>
    intro p hb hs
    have hhd := hb it (List.mem_cons_self it tl)
    have htl : ∀ x ∈ tl, x.1 < 65536 ∧ x.2.length + 1 < 65536 :=
      fun x hx => hb x (List.mem_cons_of_mem it hx)
    obtain ⟨hH, rH⟩ := readItemHeader_at buf p (13 + it.2.length) 1 0 0 0
      (encU16 it.1 ++ (encU16 (it.2.length + 1) ++ ([0] ++ (it.2 ++
        ((tl.map fun x => encNvItem x.1 x.2).flatten ++ rest)))))
      (by omega) (by simpa [encNvItem, List.append_assoc] using hs)
    obtain ⟨hNv1, hNv2⟩ := (parseNv_enc ⟨13 + it.2.length, 1, 0, leBytes [0, 0]⟩
      buf (p + 8) it.1 0 it.2
      ((tl.map fun x => encNvItem x.1 x.2).flatten ++ rest)
      hhd.1 hhd.2 rH).1 rfl
    obtain ⟨ih1, ih2⟩ := ih (p + 8 + (5 + it.2.length)) htl hNv2
    have hlen : (((it :: tl).map fun x => encNvItem x.1 x.2).flatten).length =
        13 + it.2.length +
          ((tl.map fun x => encNvItem x.1 x.2).flatten).length := by
      simp [encNvItem, encU16, encU32]
      omega
    have hpos : p + 8 + (5 + it.2.length) +
        ((tl.map fun x => encNvItem x.1 x.2).flatten).length =
        p + (((it :: tl).map fun x => encNvItem x.1 x.2).flatten).length := by
      rw [hlen]
      omega
    have hdisp : parseOneItem ⟨13 + it.2.length, 1, 0, leBytes [0, 0]⟩ ne
        ⟨buf, p + 8⟩ =
        parseNv ⟨13 + it.2.length, 1, 0, leBytes [0, 0]⟩ ⟨buf, p + 8⟩ := by
      simp [parseOneItem]
    constructor
    · simp only [List.length_cons, parseItems, hH, hdisp, hNv1, ih1,
        List.map_cons]
      rw [hpos]
      simp
    · rw [← hpos]
      exact ih2

/-- Behaviour of `_parse_image` on a buffer made of a valid header declaring
`items.length + 1` items, the encoded items, and an arbitrary tail: the
loop consumes exactly the `items.length` encoded items, emits their
outputs, and then hands the cursor (placed right after the items) to the
trailer reader. -/
theorem parseImage_encNv (ne : Bool) (items : List (Nat × List Nat))
    (tail : List Nat)
    (hb : ∀ it ∈ items, it.1 < 65536 ∧ it.2.length + 1 < 65536)
    (hN : items.length + 1 < 4294967296) :
    parseImage (encHeader (items.length + 1) ++
        ((items.map fun it => encNvItem it.1 it.2).flatten ++ tail)) ne =
      (items.map fun it => (nvItemName it.1, it.2),
       match readTrailer ⟨encHeader (items.length + 1) ++
           ((items.map fun it => encNvItem it.1 it.2).flatten ++ tail),
           24 + ((items.map fun it => encNvItem it.1 it.2).flatten).length⟩ with
       | .error e => .error e
       | .ok _ => .ok ()) ∧
    (encHeader (items.length + 1) ++
        ((items.map fun it => encNvItem it.1 it.2).flatten ++ tail)).drop
      (24 + ((items.map fun it => encNvItem it.1 it.2).flatten).length) = tail := by
  have hHdr := readMcfgHeader_enc 0 0 (items.length + 1) 0 0 4995 4 0
    ((items.map fun it => encNvItem it.1 it.2).flatten ++ tail)
    (by omega) (by omega) hN (by omega) (by omega) (by omega) (by omega)
    (by omega)
  rw [show encHeaderGen 0 0 (items.length + 1) 0 0 4995 4 0 =
    encHeader (items.length + 1) from rfl] at hHdr
  have hHdr1 := hHdr.1
  have hHdr2 := hHdr.2
  norm_num at hHdr1
  obtain ⟨hIt1, hIt2⟩ := parseItems_encNv ne items _ tail 24 hb hHdr2
  refine ⟨?_, hIt2⟩
  simp only [parseImage, hHdr1]
  have hz : ¬(items.length + 1 = 0) := by omega
  simp only [hz, reduceIte, if_neg, Nat.add_sub_cancel, hIt1]
  cases hT : readTrailer ⟨encHeader (items.length + 1) ++
      ((items.map fun it => encNvItem it.1 it.2).flatten ++ tail),
      24 + ((items.map fun it => encNvItem it.1 it.2).flatten).length⟩ with
  | error e => simp [hT]
  | ok s2 => simp [hT]

/-- One successful iteration of the item loop, unfolded. -/
theorem parseItems_step (ne : Bool) (n : Nat) (s s1 s2 : ByteStream)
    (h : ItemHeader) (out : String × List Nat)
    (hH : readItemHeader s = .ok (h, s1))
    (hO : parseOneItem h ne s1 = .ok (out, s2)) :
    parseItems ne (n + 1) s =
      (out :: (parseItems ne n s2).1, (parseItems ne n s2).2) := by
  conv_lhs => rw [parseItems]
  simp only [hH, hO]

/-- If the loop is asked for one more item than are encoded before a
trailer, the extra iteration reads the trailer bytes as an item record
and the dispatcher rejects its type byte (10) as an unknown item type. -/
theorem parseItems_encNv_plus1 (ne : Bool) (items : List (Nat × List Nat))
    (buf : List Nat) (rest : List Nat) :
    ∀ p, (∀ it ∈ items, it.1 < 65536 ∧ it.2.length + 1 < 65536) →
    buf.drop p = (items.map fun it => encNvItem it.1 it.2).flatten ++
      (encTrailer ++ rest) →
    parseItems ne (items.length + 1) ⟨buf, p⟩ =
      (items.map fun it => (nvItemName it.1, it.2),
       .error "Invalid MBN: unknown item type") := by
  induction items with
  | nil =>
    intro p _ hs
    obtain ⟨hH, rH⟩ := readItemHeader_at buf p 0 10 0 0 0
      ([161, 0, 16, 0] ++ (TRAILER_MAGIC ++ rest)) (by omega)
      (by simpa [encTrailer, encTrailerRaw, encU16, encU32,
        List.append_assoc] using hs)
    have hOne : parseOneItem ⟨0, 10, 0, leBytes [0, 0]⟩ ne ⟨buf, p + 8⟩ =
        .error "Invalid MBN: unknown item type" := by
      simp [parseOneItem]
    simp only [List.length_nil, List.map_nil, parseItems, hH, hOne]
  | cons it tl ih =>
    intro p hb hs
    have hhd := hb it (List.mem_cons_self it tl)
    have htl : ∀ x ∈ tl, x.1 < 65536 ∧ x.2.length + 1 < 65536 :=
      fun x hx => hb x (List.mem_cons_of_mem it hx)
    obtain ⟨hH, rH⟩ := readItemHeader_at buf p (13 + it.2.length) 1 0 0 0
      (encU16 it.1 ++ (encU16 (it.2.length + 1) ++ ([0] ++ (it.2 ++
        ((tl.map fun x => encNvItem x.1 x.2).flatten ++ (encTrailer ++ rest))))))
      (by omega) (by simpa [encNvItem, List.append_assoc] using hs)
    obtain ⟨hNv1, hNv2⟩ := (parseNv_enc ⟨13 + it.2.length, 1, 0, leBytes [0, 0]⟩
      buf (p + 8) it.1 0 it.2
      ((tl.map fun x => encNvItem x.1 x.2).flatten ++ (encTrailer ++ rest))
      hhd.1 hhd.2 rH).1 rfl
    have ihh := ih (p + 8 + (5 + it.2.length)) htl hNv2
    have hdisp : parseOneItem ⟨13 + it.2.length, 1, 0, leBytes [0, 0]⟩ ne
        ⟨buf, p + 8⟩ =
        parseNv ⟨13 + it.2.length, 1, 0, leBytes [0, 0]⟩ ⟨buf, p + 8⟩ := by
      simp [parseOneItem]
    rw [List.length_cons,
      parseItems_step ne (tl.length + 1) ⟨buf, p⟩ ⟨buf, p + 8⟩
        ⟨buf, p + 8 + (5 + it.2.length)⟩
        ⟨13 + it.2.length, 1, 0, leBytes [0, 0]⟩ (nvItemName it.1, it.2) hH
        (by rw [hdisp]; exact hNv1),
      ihh]
    simp

theorem take_take_length (l : List Nat) (k : Nat) :
    l.take ((l.take k).length) = l.take k := by
  rcases le_or_lt k l.length with h | h
  · rw [List.length_take, Nat.min_eq_left h]
  · rw [List.take_of_length_le (Nat.le_of_lt h), List.take_length]

/-- Full specification of a successful `_read_exact`: the returned chunk
has exactly the requested length, is the next bytes of the buffer, and
the cursor advances by exactly that amount. -/
theorem readExact_ok_spec (s : ByteStream) (n : Int) (d : List Nat)
    (s' : ByteStream) (hok : readExact s n = .ok (d, s')) :
    s'.data = s.data ∧ s'.pos = s.pos + d.length ∧ (d.length : Int) = n ∧
      d = s.remaining.take d.length := by
  simp only [readExact, streamRead] at hok
  by_cases hneg : n < 0
  · rw [if_pos hneg] at hok
    split at hok
    next hcond =>
      simp only [Except.ok.injEq, Prod.mk.injEq] at hok
      obtain ⟨hd, hs'⟩ := hok
      subst hd
      subst hs'
      refine ⟨rfl, rfl, hcond, ?_⟩
      rw [List.take_length]
    next hcond => exact absurd hok (by simp)
  · rw [if_neg hneg] at hok
    split at hok
    next hcond =>
      simp only [Except.ok.injEq, Prod.mk.injEq] at hok
      obtain ⟨hd, hs'⟩ := hok
      subst hd
      subst hs'
      refine ⟨rfl, rfl, hcond, ?_⟩
      exact (take_take_length s.remaining n.toNat).symm
    next hcond => exact absurd hok (by simp)

/-- Specification of a successful 16-bit field read. -/
theorem readU16_ok_spec (s : ByteStream) (v : Nat) (s' : ByteStream)
    (hok : readU16 s = .ok (v, s')) :
    s'.data = s.data ∧ s'.pos = s.pos + 2 ∧
      v = leBytes (s.remaining.take 2) := by
  simp only [readU16] at hok
  cases he : readExact s 2 with
  | error e => rw [he] at hok; exact absurd hok (by simp)
  | ok pr =>
    obtain ⟨d, s1⟩ := pr
    rw [he] at hok
    simp only [Except.ok.injEq, Prod.mk.injEq] at hok
    obtain ⟨hv, hs1⟩ := hok
    obtain ⟨q1, q2, q3, q4⟩ := readExact_ok_spec s 2 d s1 he
    have hdl : d.length = 2 := by omega
    subst hs1
    refine ⟨q1, by omega, ?_⟩
    rw [← hv, q4, hdl]

/-- A successful NV decode: the buffer is unchanged, the cursor only moves
forward, the consumed span plus the 8 item-header bytes equals the
declared item length, the output name is `NvItem__` followed by the
zero-padded id read from the first two payload bytes, and the output
content is exactly the bytes read from the buffer. -/
theorem parseNv_ok_shape (h : ItemHeader) (s : ByteStream)
    (r : (String × List Nat) × ByteStream) (hok : parseNv h s = .ok r) :
    r.2.data = s.data ∧ s.pos ≤ r.2.pos ∧
      (r.2.pos - s.pos) + 8 = h.length ∧
      r.1.1 = nvItemName (leBytes (s.remaining.take 2)) ∧
      r.1.2 = (s.remaining.drop 5).take r.1.2.length := by
  cases h1 : readU16 s with
  | error e =>
    simp only [parseNv, h1] at hok
    exact Except.noConfusion hok
  | ok v1 =>
  obtain ⟨nvId, s1⟩ := v1
  cases h2 : readU16 s1 with
  | error e =>
    simp only [parseNv, h1, h2] at hok
    exact Except.noConfusion hok
  | ok v2 =>
  obtain ⟨sizeField, s2⟩ := v2
  cases h3 : readExact s2 1 with
  | error e =>
    simp only [parseNv, h1, h2, h3] at hok
    exact Except.noConfusion hok
  | ok v3 =>
  obtain ⟨m, s3⟩ := v3
  cases h4 : readExact s3 ((sizeField : Int) - 1) with
  | error e =>
    simp only [parseNv, h1, h2, h3, h4] at hok
    exact Except.noConfusion hok
  | ok v4 =>
  obtain ⟨dat, s4⟩ := v4
  simp only [parseNv, h1, h2, h3, h4] at hok
  split at hok
  next hcond => exact absurd hok (by simp)
  next hcond =>
    simp only [Except.ok.injEq] at hok
    subst hok
    obtain ⟨a1, a2, a3⟩ := readU16_ok_spec s nvId s1 h1
    obtain ⟨b1, b2, b3⟩ := readU16_ok_spec s1 sizeField s2 h2
    obtain ⟨c1, c2, c3, c4⟩ := readExact_ok_spec s2 1 m s3 h3
    obtain ⟨d1, d2, d3, d4⟩ := readExact_ok_spec s3 ((sizeField : Int) - 1)
      dat s4 h4
    refine ⟨?_, ?_, ?_, ?_, ?_⟩
    · show s4.data = s.data
      rw [d1, c1, b1, a1]
    · show s.pos ≤ s4.pos
      omega
    · show s4.pos - s.pos + 8 = h.length
      omega
    · show nvItemName nvId = nvItemName (leBytes (s.remaining.take 2))
      rw [a3]
    · show dat = (s.remaining.drop 5).take dat.length
      have hrem : s3.remaining = s.remaining.drop 5 := by
        have hdata : s3.data = s.data := by rw [c1, b1, a1]
        have hpos : s3.pos = s.pos + 5 := by omega
        show s3.data.drop s3.pos = (s.data.drop s.pos).drop 5
        rw [hdata, hpos, List.drop_drop]
      rw [← hrem]
      exact d4

/-- A successful file-item decode: the buffer is unchanged, the cursor
only moves forward, and the consumed span plus the 8 item-header bytes
equals the declared item length. -/
theorem parseFile_ok_span (h : ItemHeader) (nv ne : Bool) (s : ByteStream)
    (r : (String × List Nat) × ByteStream)
    (hok : parseFile h nv ne s = .ok r) :
    r.2.data = s.data ∧ s.pos ≤ r.2.pos ∧
      (r.2.pos - s.pos) + 8 = h.length := by
  cases h1 : readU16 s with
  | error e =>
    simp only [parseFile, h1] at hok
    exact Except.noConfusion hok
  | ok v1 =>
  obtain ⟨fMagic, s1⟩ := v1
  cases h2 : readU16 s1 with
  | error e =>
    simp only [parseFile, h1, h2] at hok
    split at hok <;> try split at hok
    all_goals exact Except.noConfusion hok
  | ok v2 =>
  obtain ⟨nameLen, s2⟩ := v2
  cases h3 : readExact s2 (nameLen : Int) with
  | error e =>
    simp only [parseFile, h1, h2, h3] at hok
    split at hok <;> try split at hok
    all_goals exact Except.noConfusion hok
  | ok v3 =>
  obtain ⟨rawName, s3⟩ := v3
  cases h4 : readU16 s3 with
  | error e =>
    simp only [parseFile, h1, h2, h3, h4] at hok
    split at hok <;> try split at hok
    all_goals exact Except.noConfusion hok
  | ok v4 =>
  obtain ⟨sMagic, s4⟩ := v4
  cases h5 : readU16 s4 with
  | error e =>
    simp only [parseFile, h1, h2, h3, h4, h5] at hok
    split at hok <;> try split at hok
    all_goals exact Except.noConfusion hok
  | ok v5 =>
  obtain ⟨sizeField, s5⟩ := v5
  cases h6 : readExact s5 1 with
  | error e =>
    simp only [parseFile, h1, h2, h3, h4, h5, h6] at hok
    split at hok <;> try split at hok
    all_goals exact Except.noConfusion hok
  | ok v6 =>
  obtain ⟨m, s6⟩ := v6
  cases h7 : readExact s6 ((sizeField : Int) - 1) with
  | error e =>
    simp only [parseFile, h1, h2, h3, h4, h5, h6, h7] at hok
    split at hok <;> try split at hok
    all_goals exact Except.noConfusion hok
  | ok v7 =>
  obtain ⟨dat, s7⟩ := v7
  simp only [parseFile, h1, h2, h3, h4, h5, h6, h7] at hok
  split at hok
  next => exact Except.noConfusion hok
  next =>
  split at hok
  next => exact Except.noConfusion hok
  next =>
  split at hok
  next hspan => exact Except.noConfusion hok
  next hspan =>
    simp only [Except.ok.injEq] at hok
    subst hok
    obtain ⟨a1, a2, a3⟩ := readU16_ok_spec s fMagic s1 h1
    obtain ⟨b1, b2, b3⟩ := readU16_ok_spec s1 nameLen s2 h2
    obtain ⟨c1, c2, c3, c4⟩ := readExact_ok_spec s2 (nameLen : Int)
      rawName s3 h3
    obtain ⟨d1, d2, d3⟩ := readU16_ok_spec s3 sMagic s4 h4
    obtain ⟨e1, e2, e3⟩ := readU16_ok_spec s4 sizeField s5 h5
    obtain ⟨f1, f2, f3, f4⟩ := readExact_ok_spec s5 1 m s6 h6
    obtain ⟨g1, g2, g3, g4⟩ := readExact_ok_spec s6 ((sizeField : Int) - 1)
      dat s7 h7
    refine ⟨?_, ?_, ?_⟩
    · show s7.data = s.data
      rw [g1, f1, e1, d1, c1, b1, a1]
    · show s.pos ≤ s7.pos
      omega
    · show s7.pos - s.pos + 8 = h.length
      omega

/-- Behaviour of `_parse_nv` on a payload whose declared size field is 0: the computed
data length underflows to −1 and decoding always fails with the EOF
error, whatever follows in the buffer. -/
theorem parseNv_sizeZero (h : ItemHeader) (buf : List Nat) (p id : Nat)
    (rest : List Nat) (hid : id < 65536)
    (hs : buf.drop p = encU16 id ++ (encU16 0 ++ rest)) :
    parseNv h ⟨buf, p⟩ = .error "Unexpected EOF while reading MBN" := by
  obtain ⟨h1, r1⟩ := readU16_at buf p id _ hid hs
  obtain ⟨h2, r2⟩ := readU16_at buf (p + 2) 0 _ (by omega) r1
  cases rest with
  | nil =>
    have h3 := readExact_short ⟨buf, p + 2 + 2⟩ 1 (by
      show ((⟨buf, p + 2 + 2⟩ : ByteStream).remaining).length < 1
      rw [show (⟨buf, p + 2 + 2⟩ : ByteStream).remaining =
        buf.drop (p + 2 + 2) from rfl, r2]
      simp)
    rw [show (((1 : Nat)) : Int) = (1 : Int) from rfl] at h3
    simp only [parseNv, h1, h2, h3]
  | cons b tl =>
    obtain ⟨h3, r3⟩ := readExact_at buf (p + 2 + 2) [b] tl r2
    rw [show (([b] : List Nat).length : Int) = (1 : Int) from rfl] at h3
    rw [show ([b] : List Nat).length = 1 from rfl] at h3
    have h4 : readExact ⟨buf, p + 2 + 2 + 1⟩ (((0 : Nat) : Int) - 1) =
        .error "Unexpected EOF while reading MBN" :=
      readExact_neg _ _ (by omega)
    simp only [parseNv, h1, h2, h3, h4]

/-- Behaviour of `_parse_file` on a payload whose declared data-size field is 0: the
computed data length underflows to −1 and decoding always fails with the
EOF error, whatever follows in the buffer. -/
theorem parseFile_sizeZero (h : ItemHeader) (nv ne : Bool) (buf : List Nat)
    (p : Nat) (nb rest : List Nat) (hnb : nb.length < 65536)
    (hs : buf.drop p = encU16 1 ++ (encU16 nb.length ++ (nb ++ (encU16 2 ++
      (encU16 0 ++ rest))))) :
    parseFile h nv ne ⟨buf, p⟩ = .error "Unexpected EOF while reading MBN" := by
  obtain ⟨h1, r1⟩ := readU16_at buf p 1 _ (by omega) hs
  obtain ⟨h2, r2⟩ := readU16_at buf (p + 2) nb.length _ hnb r1
  obtain ⟨h3, r3⟩ := readExact_at buf (p + 2 + 2) nb _ r2
  obtain ⟨h4, r4⟩ := readU16_at buf (p + 2 + 2 + nb.length) 2 _ (by omega) r3
  obtain ⟨h5, r5⟩ :=
    readU16_at buf (p + 2 + 2 + nb.length + 2) 0 _ (by omega) r4
  cases rest with
  | nil =>
    have h6 := readExact_short ⟨buf, p + 2 + 2 + nb.length + 2 + 2⟩ 1 (by
      show ((⟨buf, p + 2 + 2 + nb.length + 2 + 2⟩ : ByteStream).remaining).length < 1
      rw [show (⟨buf, p + 2 + 2 + nb.length + 2 + 2⟩ : ByteStream).remaining =
        buf.drop (p + 2 + 2 + nb.length + 2 + 2) from rfl, r5]
      simp)
    rw [show (((1 : Nat)) : Int) = (1 : Int) from rfl] at h6
    simp only [parseFile, h1, h2, h3, h4, h5, h6, ne_eq, reduceIte]
    simp
  | cons b tl =>
    obtain ⟨h6, r6⟩ :=
      readExact_at buf (p + 2 + 2 + nb.length + 2 + 2) [b] tl r5
    rw [show (([b] : List Nat).length : Int) = (1 : Int) from rfl] at h6
    rw [show ([b] : List Nat).length = 1 from rfl] at h6
    have h7 : readExact ⟨buf, p + 2 + 2 + nb.length + 2 + 2 + 1⟩
        (((0 : Nat) : Int) - 1) =
        .error "Unexpected EOF while reading MBN" :=
      readExact_neg _ _ (by omega)
    simp only [parseFile, h1, h2, h3, h4, h5, h6, h7, ne_eq, reduceIte]
    simp

/-- Behaviour of `_read_trailer` at end of buffer: the very first 4-byte read fails. -/
theorem readTrailer_empty (s : ByteStream) (h : s.remaining = []) :
    readTrailer s = .error "Unexpected EOF while reading MBN" := by
  have h4 := readExact_short s 4 (by rw [h]; simp)
  rw [show (((4 : Nat)) : Int) = (4 : Int) from rfl] at h4
  simp only [readTrailer, h4]

/-! ### The `main` entry point

`main` maps outcomes to process exit codes: a missing input file exits 2,
an `MbnExtractorException` exits 2, and any other exception exits 1.  The
call `MbnExtractor.extract(input_path, outdir, no_extra, logger=logger)`
evaluates the bare name `no_extra`, which is not bound in `main` (the
parsed flag lives in the attribute `args.no_extra`), so Python raises
`NameError` before extraction starts; `NameError` is not an
`MbnExtractorException` and lands in the generic handler.  We model
`main`'s name environment and its exit-code mapping. -/

/-- The local names bound in `main` before the `extract` call. -/
def mainLocalNames : List String :=
  ["parser", "args", "logger", "input_path", "outdir"]

/-- Python name resolution inside `main`. -/
def evalName (env : List String) (n : String) : Except String Unit :=
  if n ∈ env then .ok () else
    .error ("NameError: name " ++ n ++ " is not defined")

/-- The exit status of `main`: 2 when the input path is not a file;
otherwise the argument expression `no_extra` of the `extract` call is
evaluated first — if it raises `NameError` the generic handler exits 1,
and only if it resolved would extraction run and exit 0 on success or 2
on an `MbnExtractorException`. -/
def mainExitCode (inputIsFile : Bool) (extractOutcome : Except String Unit) :
    Nat :=
  if inputIsFile = false then 2
  else
    match evalName mainLocalNames "no_extra" with
    | .error _ => 1
    | .ok _ =>
      match extractOutcome with
      | .ok _ => 0
      | .error _ => 2

/-! ### Claim theorems -/

/-- C1: for every decoded item record (NV or file-shaped; NvFile uses the
file decoder), the byte span consumed by the decoder plus the record's
own 8-byte header equals the declared length field; any record whose
consumed span differs from the declared length (for example a payload one
byte short) fails with the size-mismatch error of that item kind, and no
output is produced (the decoder returns an error instead of a
name/content pair). -/
theorem c1_consumed_span_matches_length :
    (∀ (h : ItemHeader) (s : ByteStream)
      (r : (String × List Nat) × ByteStream),
      parseNv h s = .ok r →
      s.pos ≤ r.2.pos ∧ (r.2.pos - s.pos) + 8 = h.length) ∧
    (∀ (h : ItemHeader) (nv ne : Bool) (s : ByteStream)
      (r : (String × List Nat) × ByteStream),
      parseFile h nv ne s = .ok r →
      s.pos ≤ r.2.pos ∧ (r.2.pos - s.pos) + 8 = h.length) ∧
    (∀ (h : ItemHeader) (buf : List Nat) (p id m : Nat)
      (data rest : List Nat),
      id < 65536 → data.length + 1 < 65536 →
      buf.drop p = encU16 id ++ (encU16 (data.length + 1) ++
        ([m] ++ (data ++ rest))) →
      h.length ≠ 13 + data.length →
      parseNv h ⟨buf, p⟩ = .error "Invalid NV item size") ∧
    (∀ (h : ItemHeader) (nv ne : Bool) (buf : List Nat) (p m : Nat)
      (nb data rest : List Nat),
      nb.length < 65536 → data.length + 1 < 65536 →
      buf.drop p = encU16 1 ++ (encU16 nb.length ++ (nb ++ (encU16 2 ++
        (encU16 (data.length + 1) ++ ([m] ++ (data ++ rest)))))) →
      h.length ≠ 17 + nb.length + data.length →
      parseFile h nv ne ⟨buf, p⟩ = .error "Invalid file item size") := by
  refine ⟨?_, ?_, ?_, ?_⟩
  · intro h s r hok
    obtain ⟨_, q2, q3, _, _⟩ := parseNv_ok_shape h s r hok
    exact ⟨q2, q3⟩
  · intro h nv ne s r hok
    obtain ⟨_, q2, q3⟩ := parseFile_ok_span h nv ne s r hok
    exact ⟨q2, q3⟩
  · intro h buf p id m data rest hid hlen hs hne
    exact (parseNv_enc h buf p id m data rest hid hlen hs).2 hne
  · intro h nv ne buf p m nb data rest hnb hlen hs hne
    exact (parseFile_enc h nv ne buf p m nb data rest hnb hlen hs).2 hne

/-- Witness for C1 at concrete records: a well-formed NV record with
declared length 14 satisfies the span equation, and the same NV payload
under declared length 15 (payload one byte short of the declaration) and
a file payload under declared length 20 (also one byte short) fail with
their size-mismatch errors. -/
theorem c1_witness :
    ((⟨[7, 0, 2, 0, 0, 9], 0⟩ : ByteStream).pos ≤
      (⟨[7, 0, 2, 0, 0, 9], 6⟩ : ByteStream).pos ∧
      ((⟨[7, 0, 2, 0, 0, 9], 6⟩ : ByteStream).pos -
        (⟨[7, 0, 2, 0, 0, 9], 0⟩ : ByteStream).pos) + 8 =
        (⟨14, 1, 0, 0⟩ : ItemHeader).length) ∧
    parseNv ⟨15, 1, 0, 0⟩ ⟨[7, 0, 2, 0, 0, 9], 0⟩ =
      .error "Invalid NV item size" ∧
    parseFile ⟨20, 4, 0, 0⟩ false false ⟨[1, 0, 1, 0, 0, 2, 0, 2, 0, 0, 9], 0⟩ =
      .error "Invalid file item size" := by
  refine ⟨?_, ?_, ?_⟩
  · exact c1_consumed_span_matches_length.1 ⟨14, 1, 0, 0⟩
      ⟨[7, 0, 2, 0, 0, 9], 0⟩ ((nvItemName 7, [9]), ⟨[7, 0, 2, 0, 0, 9], 6⟩)
      (by rfl)
  · exact c1_consumed_span_matches_length.2.2.1 ⟨15, 1, 0, 0⟩
      [7, 0, 2, 0, 0, 9] 0 7 0 [9] [] (by decide) (by decide) (by rfl)
      (by decide)
  · exact c1_consumed_span_matches_length.2.2.2 ⟨20, 4, 0, 0⟩ false false
      [1, 0, 1, 0, 0, 2, 0, 2, 0, 0, 9] 0 0 [0] [9] [] (by decide) (by decide)
      (by rfl) (by decide)

/-- C2: for a well-formed buffer whose header declares
`items_count = N = items.length + 1`, the dispatcher reads exactly
`N − 1` item records and then reads the trailer (first conjunct: parsing
succeeds and emits exactly one output per encoded item).  It never reads
`N` item records: declaring one more item (second conjunct) makes the
loop consume the trailer bytes as an item record and fail; and it never
skips the trailer: removing the trailer (third conjunct) makes parsing
fail with the EOF error instead of succeeding. -/
theorem c2_loop_reads_items_count_minus_one (ne : Bool)
    (items : List (Nat × List Nat))
    (hb : ∀ it ∈ items, it.1 < 65536 ∧ it.2.length + 1 < 65536)
    (hN : items.length + 2 < 4294967296) :
    parseImage (encHeader (items.length + 1) ++
        ((items.map fun it => encNvItem it.1 it.2).flatten ++ encTrailer)) ne =
      (items.map fun it => (nvItemName it.1, it.2), .ok ()) ∧
    parseImage (encHeader (items.length + 2) ++
        ((items.map fun it => encNvItem it.1 it.2).flatten ++ encTrailer)) ne =
      (items.map fun it => (nvItemName it.1, it.2),
       .error "Invalid MBN: unknown item type") ∧
    parseImage (encHeader (items.length + 1) ++
        ((items.map fun it => encNvItem it.1 it.2).flatten ++ [])) ne =
      (items.map fun it => (nvItemName it.1, it.2),
       .error "Unexpected EOF while reading MBN") := by
  refine ⟨?_, ?_, ?_⟩
  · obtain ⟨hPI, hdrop⟩ := parseImage_encNv ne items encTrailer hb (by omega)
    have hT := readTrailer_raw
      (encHeader (items.length + 1) ++
        ((items.map fun it => encNvItem it.1 it.2).flatten ++ encTrailer))
      (24 + ((items.map fun it => encNvItem it.1 it.2).flatten).length)
      [0, 0, 0, 0] 10 [0, 0] 161 16 TRAILER_MAGIC [] rfl rfl
      (by omega) (by omega) (by omega) rfl
      (by simpa [encTrailer, encTrailerRaw, encU16, List.append_assoc]
        using hdrop)
    rw [hPI, hT]
    norm_num [decodeAscii_TRL]
  · have hHdr := readMcfgHeader_enc 0 0 (items.length + 2) 0 0 4995 4 0
      ((items.map fun it => encNvItem it.1 it.2).flatten ++ encTrailer)
      (by omega) (by omega) (by omega) (by omega) (by omega) (by omega)
      (by omega) (by omega)
    rw [show encHeaderGen 0 0 (items.length + 2) 0 0 4995 4 0 =
      encHeader (items.length + 2) from rfl] at hHdr
    have hHdr1 := hHdr.1
    have hHdr2 := hHdr.2
    norm_num at hHdr1
    have hIt := parseItems_encNv_plus1 ne items _ [] 24 hb
      (by simpa using hHdr2)
    simp only [parseImage, hHdr1]
    have hz : ¬(items.length + 2 = 0) := by omega
    simp only [hz, reduceIte, if_neg]
    rw [show items.length + 2 - 1 = items.length + 1 from by omega]
    simp only [hIt]
  · obtain ⟨hPI, hdrop⟩ := parseImage_encNv ne items [] hb (by omega)
    have hTE := readTrailer_empty
      ⟨encHeader (items.length + 1) ++
        ((items.map fun it => encNvItem it.1 it.2).flatten ++ []),
       24 + ((items.map fun it => encNvItem it.1 it.2).flatten).length⟩
      hdrop
    rw [hPI]
    simp only [hTE]

/-- Witness for C2 with one concrete NV item (`items_count = 2`). -/
theorem c2_witness :
    parseImage (encHeader 2 ++
        (([((7 : Nat), [9])].map fun it => encNvItem it.1 it.2).flatten ++
          encTrailer)) false =
      ([(nvItemName 7, [9])], .ok ()) := by
  have h := (c2_loop_reads_items_count_minus_one false [(7, [9])]
    (by decide) (by decide)).1
  simpa using h

/-- C3 counterexample: a trailer whose payload bytes are NOT the 8 ASCII
bytes of `"MCFG_TRL"` — here 9 bytes, `b"MCFG_TRL"` followed by 0xFF, with
`data_length = 17` — is ACCEPTED by trailer validation instead of failing,
because the ASCII decode uses `errors="ignore"` and silently drops the
0xFF byte before the comparison. -/
theorem c3_counterexample :
    readTrailer ⟨[0, 0, 0, 0, 10, 0, 0, 0, 161, 0, 17, 0,
      77, 67, 70, 71, 95, 84, 82, 76, 255], 0⟩ =
      .ok ⟨[0, 0, 0, 0, 10, 0, 0, 0, 161, 0, 17, 0,
        77, 67, 70, 71, 95, 84, 82, 76, 255], 21⟩ := by
  rfl

/-- C3 (amended): trailer validation accepts a trailer exactly when
magic1 = 10, magic2 = 0xA1, data_length ≥ 8, and the payload bytes of
length `data_length − 8`, decoded as ASCII with non-ASCII bytes (≥ 0x80)
silently dropped, equal `"MCFG_TRL"`; each failed check raises its own
trailer-specific error, and a trailer failure does not affect the item
files already written (the outputs of the items before a failing trailer
are exactly those before a valid trailer). -/
theorem c3_trailer_validation_amended :
    (∀ (buf : List Nat) (p : Nat) (rl4 : List Nat) (m1 : Nat)
      (rsv2 : List Nat) (m2 dl : Nat) (payload rest : List Nat),
      rl4.length = 4 → rsv2.length = 2 → m1 < 65536 → m2 < 65536 →
      dl < 65536 → payload.length = dl - 8 →
      buf.drop p = rl4 ++ (encU16 m1 ++ (rsv2 ++ (encU16 m2 ++
        (encU16 dl ++ (payload ++ rest))))) →
      readTrailer ⟨buf, p⟩ =
        if m1 ≠ 10 then .error "Invalid trailer magic 1"
        else if m2 ≠ 161 then .error "Invalid trailer magic 2"
        else if dl < 8 then .error "Invalid trailer size"
        else if decodeAsciiIgnore payload ≠ "MCFG_TRL" then
          .error "Invalid trailer magic value"
        else .ok ⟨buf, p + (12 + payload.length)⟩) ∧
    (∀ (ne : Bool) (items : List (Nat × List Nat)),
      (∀ it ∈ items, it.1 < 65536 ∧ it.2.length + 1 < 65536) →
      items.length + 1 < 4294967296 →
      parseImage (encHeader (items.length + 1) ++
          ((items.map fun it => encNvItem it.1 it.2).flatten ++
            encTrailerRaw [0, 0, 0, 0] 10 [0, 0] 161 16
              [77, 67, 70, 71, 95, 84, 82, 88])) ne =
        (items.map fun it => (nvItemName it.1, it.2),
         .error "Invalid trailer magic value")) := by
  constructor
  · intro buf p rl4 m1 rsv2 m2 dl payload rest h1 h2 h3 h4 h5 h6 h7
    exact readTrailer_raw buf p rl4 m1 rsv2 m2 dl payload rest h1 h2 h3 h4
      h5 h6 h7
  · intro ne items hb hN
    obtain ⟨hPI, hdrop⟩ := parseImage_encNv ne items
      (encTrailerRaw [0, 0, 0, 0] 10 [0, 0] 161 16
        [77, 67, 70, 71, 95, 84, 82, 88]) hb hN
    have hT := readTrailer_raw
      (encHeader (items.length + 1) ++
        ((items.map fun it => encNvItem it.1 it.2).flatten ++
          encTrailerRaw [0, 0, 0, 0] 10 [0, 0] 161 16
            [77, 67, 70, 71, 95, 84, 82, 88]))
      (24 + ((items.map fun it => encNvItem it.1 it.2).flatten).length)
      [0, 0, 0, 0] 10 [0, 0] 161 16 [77, 67, 70, 71, 95, 84, 82, 88] []
      rfl rfl (by omega) (by omega) (by omega) rfl
      (by simpa [encTrailerRaw, encU16, List.append_assoc] using hdrop)
    have hdec : decodeAsciiIgnore [77, 67, 70, 71, 95, 84, 82, 88] =
        "MCFG_TRX" := by decide
    rw [hPI, hT]
    norm_num [hdec, show ("MCFG_TRX" : String) ≠ "MCFG_TRL" from by decide]

/-- Witness for C3's amended theorem: the validation cascade at a concrete
tampered trailer (magic1 = 11) and the outputs-preserved conjunct with one
concrete item before a content-tampered trailer. -/
theorem c3_witness :
    readTrailer ⟨[0, 0, 0, 0, 11, 0, 0, 0, 161, 0, 16, 0,
      77, 67, 70, 71, 95, 84, 82, 76], 0⟩ =
      .error "Invalid trailer magic 1" ∧
    parseImage (encHeader 2 ++
        (([((7 : Nat), [9])].map fun it => encNvItem it.1 it.2).flatten ++
          encTrailerRaw [0, 0, 0, 0] 10 [0, 0] 161 16
            [77, 67, 70, 71, 95, 84, 82, 88])) false =
      ([(nvItemName 7, [9])], .error "Invalid trailer magic value") := by
  constructor
  · have h := c3_trailer_validation_amended.1
      [0, 0, 0, 0, 11, 0, 0, 0, 161, 0, 16, 0,
        77, 67, 70, 71, 95, 84, 82, 76] 0
      [0, 0, 0, 0] 11 [0, 0] 161 16 [77, 67, 70, 71, 95, 84, 82, 76] []
      rfl rfl (by decide) (by decide) (by decide) (by decide) (by decide)
    rw [h]
    norm_num
  · have h := c3_trailer_validation_amended.2 false [(7, [9])]
      (by decide) (by decide)
    simpa using h

/-- C4 (code bug): the claimed exit-code contract — 0 on success, 2 on a
structural failure — cannot hold, because `main` passes the undefined
bare name `no_extra` to `extract` (the flag is stored as
`args.no_extra`); the resulting `NameError` is caught by the generic
handler, so every run whose input path exists exits 1 regardless of
whether extraction would have succeeded, and a missing input still exits
2 before the bad call is reached. -/
theorem c4_exit_code_always_one (outcome : Except String Unit) :
    mainExitCode true outcome = 1 ∧ mainExitCode false outcome = 2 := by
  constructor
  · rfl
  · rfl

/-- C5: header parsing fails with the invalid-header error whenever
`version_id ≠ 4995` (first conjunct) and, with a correct `version_id`,
whenever `version_size ≠ 4` (second conjunct) — so for every other value
of those 16-bit fields parsing never proceeds past the header — and a
container declaring `items_count = 0` fails with the empty-container
error before any item record is read (no outputs are produced). -/
theorem c5_header_validation :
    (∀ (ft ct n ci rsv vid vsz ver : Nat) (rest : List Nat),
      ft < 65536 → ct < 65536 → n < 4294967296 → ci < 65536 →
      rsv < 65536 → vid < 65536 → vsz < 65536 → ver < 4294967296 →
      vid ≠ 4995 →
      readMcfgHeader ⟨encHeaderGen ft ct n ci rsv vid vsz ver ++ rest, 0⟩ =
        .error "Invalid MBN header version id") ∧
    (∀ (ft ct n ci rsv vsz ver : Nat) (rest : List Nat),
      ft < 65536 → ct < 65536 → n < 4294967296 → ci < 65536 →
      rsv < 65536 → vsz < 65536 → ver < 4294967296 →
      vsz ≠ 4 →
      readMcfgHeader ⟨encHeaderGen ft ct n ci rsv 4995 vsz ver ++ rest, 0⟩ =
        .error "Invalid MBN header version size") ∧
    (∀ (ft ct ci rsv ver : Nat) (rest : List Nat) (ne : Bool),
      ft < 65536 → ct < 65536 → ci < 65536 → rsv < 65536 →
      ver < 4294967296 →
      parseImage (encHeaderGen ft ct 0 ci rsv 4995 4 ver ++ rest) ne =
        ([], .error "Invalid MBN header: zero items count")) := by
  refine ⟨?_, ?_, ?_⟩
  · intro ft ct n ci rsv vid vsz ver rest hft hct hn hci hrsv hvid hvsz hver
      hne
    have h := (readMcfgHeader_enc ft ct n ci rsv vid vsz ver rest hft hct hn
      hci hrsv hvid hvsz hver).1
    rw [h, if_pos hne]
  · intro ft ct n ci rsv vsz ver rest hft hct hn hci hrsv hvsz hver hne
    have h := (readMcfgHeader_enc ft ct n ci rsv 4995 vsz ver rest hft hct hn
      hci hrsv (by omega) hvsz hver).1
    rw [h, if_neg (by omega), if_pos hne]
  · intro ft ct ci rsv ver rest ne hft hct hci hrsv hver
    have h := (readMcfgHeader_enc ft ct 0 ci rsv 4995 4 ver rest hft hct
      (by omega) hci hrsv (by omega) (by omega) hver).1
    norm_num at h
    simp only [parseImage, h]
    simp

/-- Witness for C5 at concrete headers: a tampered `version_id` (4996), a
tampered `version_size` (5), and a zero item count. -/
theorem c5_witness :
    readMcfgHeader ⟨encHeaderGen 0 0 1 0 0 4996 4 0 ++ [], 0⟩ =
      .error "Invalid MBN header version id" ∧
    readMcfgHeader ⟨encHeaderGen 0 0 1 0 0 4995 5 0 ++ [], 0⟩ =
      .error "Invalid MBN header version size" ∧
    parseImage (encHeaderGen 0 0 0 0 0 4995 4 0 ++ []) false =
      ([], .error "Invalid MBN header: zero items count") := by
  refine ⟨?_, ?_, ?_⟩
  · exact c5_header_validation.1 0 0 1 0 0 4996 4 0 [] (by decide) (by decide)
      (by decide) (by decide) (by decide) (by decide) (by decide) (by decide)
      (by decide)
  · exact c5_header_validation.2.1 0 0 1 0 0 5 0 [] (by decide) (by decide)
      (by decide) (by decide) (by decide) (by decide) (by decide) (by decide)
  · exact c5_header_validation.2.2 0 0 0 0 0 [] false (by decide) (by decide)
      (by decide) (by decide) (by decide)

/-- C6: every successfully decoded NV item is emitted under the name
`NvItem__` followed by its nv_id zero-padded to 8 decimal digits
(first conjunct, over all successful decodes: the name is built from the
id read out of the first two payload bytes and the content is exactly the
bytes read from the buffer with no transformation); the second conjunct
is the same fact for an encoded NV payload, where the output content
equals the encoded data verbatim; and nv_id 7 yields exactly
`NvItem__00000007`. -/
theorem c6_nv_output_name_and_content :
    (∀ (h : ItemHeader) (s : ByteStream)
      (r : (String × List Nat) × ByteStream),
      parseNv h s = .ok r →
      r.1.1 = nvItemName (leBytes (s.remaining.take 2)) ∧
      r.1.2 = (s.remaining.drop 5).take r.1.2.length) ∧
    (∀ (h : ItemHeader) (buf : List Nat) (p id m : Nat)
      (data rest : List Nat),
      id < 65536 → data.length + 1 < 65536 →
      buf.drop p = encU16 id ++ (encU16 (data.length + 1) ++
        ([m] ++ (data ++ rest))) →
      h.length = 13 + data.length →
      parseNv h ⟨buf, p⟩ =
        .ok ((nvItemName id, data), ⟨buf, p + (5 + data.length)⟩)) ∧
    nvItemName 7 = "NvItem__00000007" := by
  refine ⟨?_, ?_, by decide⟩
  · intro h s r hok
    obtain ⟨_, _, _, q4, q5⟩ := parseNv_ok_shape h s r hok
    exact ⟨q4, q5⟩
  · intro h buf p id m data rest hid hlen hs hL
    exact ((parseNv_enc h buf p id m data rest hid hlen hs).1 hL).1

/-- Witness for C6: a concrete NV item with id 7 and two data bytes. -/
theorem c6_witness :
    parseNv ⟨15, 1, 0, 0⟩ ⟨[7, 0, 3, 0, 0, 5, 6], 0⟩ =
      .ok (("NvItem__00000007", [5, 6]), ⟨[7, 0, 3, 0, 0, 5, 6], 7⟩) := by
  have h := c6_nv_output_name_and_content.2.1 ⟨15, 1, 0, 0⟩
    [7, 0, 3, 0, 0, 5, 6] 0 7 0 [5, 6] [] (by decide) (by decide) (by rfl)
    (by decide)
  rw [h]
  rfl

/-- C7: the item-type dispatch sends NvFile records (type 2) and File
records (type 4) to the file decoder with the matching kind flag (first
two conjuncts); a file-shaped item with decoded name `n` is emitted as
`n ++ "__E1FF_F"` when it is an NvFile and `n ++ "__81FF_0"` when it is a
File while suffixing is enabled (the default, `no_extra_data = false`),
and as exactly `n` with no suffix when suppression is enabled. -/
theorem c7_file_name_suffix_policy :
    (∀ (h : ItemHeader) (ne : Bool) (s : ByteStream), h.type = 2 →
      parseOneItem h ne s = parseFile h true ne s) ∧
    (∀ (h : ItemHeader) (ne : Bool) (s : ByteStream), h.type = 4 →
      parseOneItem h ne s = parseFile h false ne s) ∧
    (∀ (h : ItemHeader) (isNv : Bool) (buf : List Nat) (p m : Nat)
      (nb data rest : List Nat),
      nb.length < 65536 → data.length + 1 < 65536 →
      buf.drop p = encU16 1 ++ (encU16 nb.length ++ (nb ++ (encU16 2 ++
        (encU16 (data.length + 1) ++ ([m] ++ (data ++ rest)))))) →
      h.length = 17 + nb.length + data.length →
      parseFile h isNv false ⟨buf, p⟩ =
        .ok (((if isNv then
            (if 0 < nb.length then
              decodeAsciiIgnore (nb.take (nb.length - 1)) else "") ++
              "__E1FF_F"
          else
            (if 0 < nb.length then
              decodeAsciiIgnore (nb.take (nb.length - 1)) else "") ++
              "__81FF_0"), data),
          ⟨buf, p + (9 + nb.length + data.length)⟩) ∧
      parseFile h isNv true ⟨buf, p⟩ =
        .ok (((if 0 < nb.length then
            decodeAsciiIgnore (nb.take (nb.length - 1)) else ""), data),
          ⟨buf, p + (9 + nb.length + data.length)⟩)) := by
  refine ⟨?_, ?_, ?_⟩
  · intro h ne s ht
    simp [parseOneItem, ht]
  · intro h ne s ht
    simp [parseOneItem, ht]
  · intro h isNv buf p m nb data rest hnb hlen hs hL
    constructor
    · have h1 := ((parseFile_enc h isNv false buf p m nb data rest hnb hlen
        hs).1 hL).1
      simpa using h1
    · have h2 := ((parseFile_enc h isNv true buf p m nb data rest hnb hlen
        hs).1 hL).1
      simpa using h2

/-- Witness for C7: a concrete item named `abc` in all three modes. -/
theorem c7_witness :
    parseFile ⟨22, 4, 0, 0⟩ false false
      ⟨[1, 0, 4, 0, 97, 98, 99, 0, 2, 0, 2, 0, 0, 1], 0⟩ =
      .ok (("abc__81FF_0", [1]),
        ⟨[1, 0, 4, 0, 97, 98, 99, 0, 2, 0, 2, 0, 0, 1], 14⟩) ∧
    parseFile ⟨22, 2, 0, 0⟩ true false
      ⟨[1, 0, 4, 0, 97, 98, 99, 0, 2, 0, 2, 0, 0, 1], 0⟩ =
      .ok (("abc__E1FF_F", [1]),
        ⟨[1, 0, 4, 0, 97, 98, 99, 0, 2, 0, 2, 0, 0, 1], 14⟩) ∧
    parseFile ⟨22, 4, 0, 0⟩ false true
      ⟨[1, 0, 4, 0, 97, 98, 99, 0, 2, 0, 2, 0, 0, 1], 0⟩ =
      .ok (("abc", [1]),
        ⟨[1, 0, 4, 0, 97, 98, 99, 0, 2, 0, 2, 0, 0, 1], 14⟩) := by
  refine ⟨?_, ?_, ?_⟩
  · exact (((c7_file_name_suffix_policy.2.2 ⟨22, 4, 0, 0⟩ false
      [1, 0, 4, 0, 97, 98, 99, 0, 2, 0, 2, 0, 0, 1] 0 0 [97, 98, 99, 0] [1]
      [] (by decide) (by decide) (by rfl) (by decide)).1).trans (by rfl))
  · exact (((c7_file_name_suffix_policy.2.2 ⟨22, 2, 0, 0⟩ true
      [1, 0, 4, 0, 97, 98, 99, 0, 2, 0, 2, 0, 0, 1] 0 0 [97, 98, 99, 0] [1]
      [] (by decide) (by decide) (by rfl) (by decide)).1).trans (by rfl))
  · exact (((c7_file_name_suffix_policy.2.2 ⟨22, 4, 0, 0⟩ false
      [1, 0, 4, 0, 97, 98, 99, 0, 2, 0, 2, 0, 0, 1] 0 0 [97, 98, 99, 0] [1]
      [] (by decide) (by decide) (by rfl) (by decide)).2).trans (by rfl))

/-- C8: every primitive field read through `_read_exact` either returns
exactly the requested number of bytes — the next bytes of the buffer,
with the cursor advanced past them and the buffer unchanged — or fails
with the truncated-input (unexpected EOF) error; in particular a buffer
that ends mid-field (fewer remaining bytes than the field declares)
always fails, so no partial or garbage field value is ever returned. -/
theorem c8_read_exact_all_or_error :
    (∀ (s : ByteStream) (n : Int),
      readExact s n = .error "Unexpected EOF while reading MBN" ∨
      ∃ d s', readExact s n = .ok (d, s') ∧ (d.length : Int) = n ∧
        s'.data = s.data ∧ s'.pos = s.pos + d.length ∧
        d = s.remaining.take d.length) ∧
    (∀ (s : ByteStream) (n : Nat), s.remaining.length < n →
      readExact s (n : Int) = .error "Unexpected EOF while reading MBN") := by
  constructor
  · intro s n
    by_cases hcond : (((streamRead s n).1.length : Int) = n)
    · right
      have hok : readExact s n = .ok ((streamRead s n).1, (streamRead s n).2) := by
        simp [readExact, hcond]
      obtain ⟨q1, q2, q3, q4⟩ := readExact_ok_spec s n _ _ hok
      exact ⟨_, _, hok, q3, q1, q2, q4⟩
    · left
      simp [readExact, hcond]
  · intro s n hlt
    exact readExact_short s n hlt

/-- Witness for C8: reading 3 bytes from a 2-byte remainder fails with
the EOF error. -/
theorem c8_witness :
    readExact ⟨[1, 2], 0⟩ (((3 : Nat)) : Int) =
      .error "Unexpected EOF while reading MBN" :=
  c8_read_exact_all_or_error.2 ⟨[1, 2], 0⟩ 3 (by decide)

/-- C9: an NV item or a file-shaped item whose declared data-size field
is 0 can never be decoded: the computed data length underflows to −1, the
exact-read helper is asked for −1 bytes (or hits the end of the buffer
one step earlier) and always reports its unexpected-EOF error, whatever
the surrounding buffer contains — so no output is ever produced for such
an item. -/
theorem c9_zero_declared_size_always_fails :
    (∀ (h : ItemHeader) (buf : List Nat) (p id : Nat) (rest : List Nat),
      id < 65536 →
      buf.drop p = encU16 id ++ (encU16 0 ++ rest) →
      parseNv h ⟨buf, p⟩ = .error "Unexpected EOF while reading MBN") ∧
    (∀ (h : ItemHeader) (nv ne : Bool) (buf : List Nat) (p : Nat)
      (nb rest : List Nat), nb.length < 65536 →
      buf.drop p = encU16 1 ++ (encU16 nb.length ++ (nb ++ (encU16 2 ++
        (encU16 0 ++ rest)))) →
      parseFile h nv ne ⟨buf, p⟩ =
        .error "Unexpected EOF while reading MBN") := by
  constructor
  · intro h buf p id rest hid hs
    exact parseNv_sizeZero h buf p id rest hid hs
  · intro h nv ne buf p nb rest hnb hs
    exact parseFile_sizeZero h nv ne buf p nb rest hnb hs

/-- Witness for C9: concrete NV and file items with declared size 0 and
plenty of trailing bytes still fail with the EOF error. -/
theorem c9_witness :
    parseNv ⟨13, 1, 0, 0⟩ ⟨[7, 0, 0, 0, 0, 1, 2, 3], 0⟩ =
      .error "Unexpected EOF while reading MBN" ∧
    parseFile ⟨17, 4, 0, 0⟩ false false
      ⟨[1, 0, 1, 0, 0, 2, 0, 0, 0, 0, 1, 2, 3], 0⟩ =
      .error "Unexpected EOF while reading MBN" := by
  constructor
  · exact c9_zero_declared_size_always_fails.1 ⟨13, 1, 0, 0⟩
      [7, 0, 0, 0, 0, 1, 2, 3] 0 7 [0, 1, 2, 3] (by decide) (by rfl)
  · exact c9_zero_declared_size_always_fails.2 ⟨17, 4, 0, 0⟩ false false
      [1, 0, 1, 0, 0, 2, 0, 0, 0, 0, 1, 2, 3] 0 [0] [0, 1, 2, 3]
      (by decide) (by rfl)

/-- C10: decoding a file-shaped item's name never fails whatever the name
bytes are — the item still decodes successfully and the name used for the
output is the ASCII decoding of the name field without its final byte,
with every non-ASCII byte (≥ 0x80) silently removed (first conjunct); the
decoded name keeps exactly the bytes below 0x80 (second conjunct), so it
can be shorter than the declared name length minus one, as on the
concrete name bytes `[97, 255, 98]` whose decoding has length 2 < 3
(third conjunct). -/
theorem c10_name_decoding_never_fails :
    (∀ (h : ItemHeader) (isNv ne : Bool) (buf : List Nat) (p m : Nat)
      (nb data rest : List Nat),
      nb.length < 65536 → data.length + 1 < 65536 →
      buf.drop p = encU16 1 ++ (encU16 nb.length ++ (nb ++ (encU16 2 ++
        (encU16 (data.length + 1) ++ ([m] ++ (data ++ rest)))))) →
      h.length = 17 + nb.length + data.length →
      parseFile h isNv ne ⟨buf, p⟩ =
        .ok ((((fun fn => if ne then fn
            else if isNv then fn ++ "__E1FF_F" else fn ++ "__81FF_0")
          (if 0 < nb.length then
            decodeAsciiIgnore (nb.take (nb.length - 1)) else "")), data),
          ⟨buf, p + (9 + nb.length + data.length)⟩)) ∧
    (∀ bs : List Nat, (decodeAsciiIgnore bs).length =
      (bs.filter (fun b => b < 128)).length) ∧
    (decodeAsciiIgnore [97, 255, 98]).length < 3 := by
  refine ⟨?_, ?_, by decide⟩
  · intro h isNv ne buf p m nb data rest hnb hlen hs hL
    exact ((parseFile_enc h isNv ne buf p m nb data rest hnb hlen hs).1 hL).1
  · intro bs
    simp [decodeAsciiIgnore]

/-- Witness for C10: a name field containing the non-ASCII byte 0xFF
(`[97, 255, 98, 0]`, declared length 4) still decodes successfully, and
the output name is `"ab"` — the 0xFF byte is silently removed, making the
name shorter than the declared length minus one. -/
theorem c10_witness :
    parseFile ⟨22, 2, 0, 0⟩ true true
      ⟨[1, 0, 4, 0, 97, 255, 98, 0, 2, 0, 2, 0, 0, 1], 0⟩ =
      .ok (("ab", [1]),
        ⟨[1, 0, 4, 0, 97, 255, 98, 0, 2, 0, 2, 0, 0, 1], 14⟩) := by
  have h := c10_name_decoding_never_fails.1 ⟨22, 2, 0, 0⟩ true true
    [1, 0, 4, 0, 97, 255, 98, 0, 2, 0, 2, 0, 0, 1] 0 0 [97, 255, 98, 0] [1]
    [] (by decide) (by decide) (by rfl) (by decide)
  exact h.trans (by rfl)
